import Mathlib

/-!
Verification development for the canvas-agent backend (agent orchestration
and tool-calling core).

Python strings are modelled as lists of characters (`Str`), Python `dict`s
as association lists, JSON values as the inductive `Value`, and raising /
catching of exceptions as `Except`.  External collaborators (the OpenAI
completion endpoint, the `json` decoder, Firestore) are modelled by the
interface the core consumes: the completion call is a function from the
attempt number to its outcome, a JSON payload is represented together with
its decoding outcome, and the Firestore batch is the list of prepared
documents.
-/

namespace Canvas

/-- Python strings, modelled as lists of characters. -/
abbrev Str := List Char

/-- JSON-like values (the decoded form of tool arguments and the field
values of Firestore documents).  `vnull` is Python `None`;
`vtimestamp` is the Firestore `SERVER_TIMESTAMP` sentinel, which no
JSON-decoded argument can produce. -/
inductive Value where
  | vnull
  | vbool (b : Bool)
  | vnum (n : Int)
  | vstr (s : Str)
  | varr (elems : List Value)
  | vobj (fields : List (Str × Value))
  | vtimestamp

/-- `v is None` in Python. -/
def Value.isNull : Value → Bool
  | .vnull => true
  | _ => false

/-- Dictionary lookup on an association list (Python `d.get(k)` /
`k in d`). -/
def alookup {α : Type} : List (Str × α) → Str → Option α
  | [], _ => none
  | (k, v) :: rest, key => if k = key then some v else alookup rest key

/-- Dictionary assignment `d[k] = v`: replace the first binding of `k`,
or append a new binding if `k` is absent. -/
def setKey {α : Type} : List (Str × α) → Str → α → List (Str × α)
  | [], key, v => [(key, v)]
  | (k, w) :: rest, key, v =>
    if k = key then (k, v) :: rest else (k, w) :: setKey rest key v

/-- The keys of a dictionary. -/
def dictKeys {α : Type} (d : List (Str × α)) : List Str := d.map Prod.fst

/-- Python `s.startswith(pat)`: `pyStartsWith s pat`. -/
def pyStartsWith : Str → Str → Bool
  | _, [] => true
  | [], _ :: _ => false
  | c :: cs, p :: ps => p = c && pyStartsWith cs ps

/-- Python `s.strip()` (whitespace stripped from both ends). -/
def pyStrip (s : Str) : Str :=
  ((s.dropWhile Char.isWhitespace).reverse.dropWhile Char.isWhitespace).reverse

/-! ### Basic lemmas about the dictionary model -/

theorem alookup_setKey_self {α : Type} (d : List (Str × α)) (k : Str) (v : α) :
    alookup (setKey d k v) k = some v := by
  induction d with
  | nil => simp [setKey, alookup]
  | cons hd tl ih =>
    obtain ⟨k', w⟩ := hd
    by_cases h : k' = k
    · simp [setKey, alookup, h]
    · simp [setKey, alookup, h, ih]

theorem alookup_setKey_ne {α : Type} (d : List (Str × α)) (k k' : Str) (v : α)
    (h : k' ≠ k) : alookup (setKey d k v) k' = alookup d k' := by
  have hkk : ¬ k = k' := fun hh => h hh.symm
  induction d with
  | nil => simp [setKey, alookup, hkk]
  | cons hd tl ih =>
    obtain ⟨k₀, w⟩ := hd
    by_cases h0 : k₀ = k
    · subst h0
      simp [setKey, alookup, hkk]
    · simp only [setKey, if_neg h0, alookup]
      by_cases h1 : k₀ = k'
      · simp [h1]
      · simp [h1, ih]

theorem pyStartsWith_append (pre s : Str) : pyStartsWith (pre ++ s) pre = true := by
  induction pre with
  | nil => cases s <;> simp [pyStartsWith]
  | cons c cs ih => simp [pyStartsWith, ih]

/-! ## OpenAI completion client with retry
(`src/api/app/services/openai_service.py`)

The external completion service's failure modes are the closed taxonomy of
the spec's external-interface section: rate limit, server error, timeout
(retryable) and auth failure / malformed request / content-policy
rejection (non-retryable).  They are modelled as disjoint error kinds, the
interface the retry decorator is written against (its docstring documents
`APIError` as the server-error class).  A completion client is modelled as
a function from the attempt number (1-based) to that attempt's outcome. -/

/-- Exception classes the OpenAI call can raise. -/
inductive OpenAIError where
  | rateLimitError
  | apiError
  | apiTimeoutError
  | authenticationError
  | badRequestError
  | contentPolicyError
deriving DecidableEq

/-- `retry_if_exception_type((RateLimitError, APIError, APITimeoutError))`. -/
def isRetryableError : OpenAIError → Bool
  | .rateLimitError => true
  | .apiError => true
  | .apiTimeoutError => true
  | _ => false

/-- Retry configuration constants (hardcoded in the source). -/
def ENABLE_RETRY : Bool := true

def MAX_RETRIES : Nat := 3

def RETRY_WAIT_MULTIPLIER : Nat := 1

def RETRY_WAIT_MIN : Nat := 2

def RETRY_WAIT_MAX : Nat := 10

/-- tenacity `wait_exponential(multiplier, min, max)` evaluated after the
failure of attempt number `n`: `multiplier * 2^n` clamped into
`[min, max]`. -/
def waitExponential (n : Nat) : Nat :=
  max (max 0 RETRY_WAIT_MIN) (min (RETRY_WAIT_MULTIPLIER * 2 ^ n) RETRY_WAIT_MAX)

/-- Observable trace of one `call_openai_with_retry` invocation: the final
outcome (returned response or re-raised exception), the number of attempts
made, and the sequence of backoff waits (in seconds) in order. -/
structure RetryTrace (R : Type) where
  result : Except OpenAIError R
  attempts : Nat
  waits : List Nat

/-- One step of the tenacity retry loop.  `attempt` is the current attempt
number; `remaining` is how many further attempts `stop_after_attempt`
still allows (`MAX_RETRIES - attempt`).  A retryable failure with no
remaining attempts, or any non-retryable failure, is re-raised
(`reraise=True`). -/
def retryGo {R : Type} (client : Nat → Except OpenAIError R) :
    Nat → Nat → List Nat → RetryTrace R
  | remaining, attempt, waits =>
    match client attempt with
    | .ok r => ⟨.ok r, attempt, waits⟩
    | .error e =>
      if isRetryableError e then
        match remaining with
        | 0 => ⟨.error e, attempt, waits⟩
        | r + 1 => retryGo client r (attempt + 1) (waits ++ [waitExponential attempt])
      else ⟨.error e, attempt, waits⟩

/-- `call_openai_with_retry` under the retry decorator: up to
`MAX_RETRIES` total attempts starting at attempt 1.  (With
`ENABLE_RETRY = false` the decorator would be a no-op; the shipped
configuration enables it.) -/
def callOpenaiWithRetry {R : Type} (client : Nat → Except OpenAIError R) :
    RetryTrace R :=
  if ENABLE_RETRY then retryGo client (MAX_RETRIES - 1) 1 []
  else retryGo client 0 1 []

/-! ## Model configuration (`src/api/app/models/models.py`)

The numeric per-1k-token costs are decimal constants in the source and are
embedded as exact rationals. -/

/-- One entry of `AVAILABLE_MODELS`. -/
structure ModelInfo where
  name : Str
  cost_per_1k_input : ℚ
  cost_per_1k_output : ℚ
  recommended : Bool
  notes : Str

/-- The hardcoded `AVAILABLE_MODELS` configuration dictionary. -/
def AVAILABLE_MODELS : List (Str × ModelInfo) :=
  [ ("gpt-4-turbo".toList,
      ⟨"gpt-4-turbo-2024-04-09".toList, 1/100, 3/100, true,
        "Best balance of cost and quality".toList⟩),
    ("gpt-4o".toList,
      ⟨"gpt-4o".toList, 25/10000, 1/100, true,
        "Faster, cheaper, good quality".toList⟩),
    ("gpt-4o-mini".toList,
      ⟨"gpt-4o-mini".toList, 15/100000, 6/10000, false,
        "Cheapest, test if quality sufficient".toList⟩),
    ("gpt-4".toList,
      ⟨"gpt-4".toList, 3/100, 6/100, false,
        "Highest quality, most expensive, slower".toList⟩) ]

/-- The `ValueError` message for an unknown model key. -/
def modelNotFoundMessage (modelKey : Str) : Str :=
  "Model \x27".toList ++ modelKey ++
    "\x27 not found. Available models: [\x27gpt-4-turbo\x27, \x27gpt-4o\x27, \x27gpt-4o-mini\x27, \x27gpt-4\x27]".toList

/-- `validate_model`: `True` if the key exists, `ValueError` otherwise. -/
def validateModel (modelKey : Str) : Except Str Bool :=
  if (alookup AVAILABLE_MODELS modelKey).isSome then .ok true
  else .error (modelNotFoundMessage modelKey)

/-! ## Backend agent orchestrator
(`src/backend/app/agent/orchestrator.py`)

The OpenAI response object is modelled structurally.  A raw tool call's
argument payload is an opaque string handed to the external `json.loads`;
it is modelled by its decoding outcome (`none` = `json.JSONDecodeError`,
`some v` = the decoded JSON value).  Absent attributes (`hasattr` checks)
are modelled with `Option`. -/

/-- `tool_call.function`: a name (absent attribute or `None` ↦ `none`) and
an argument payload (absent ↦ `none`, which the code replaces by `"{}"`;
present ↦ its `json.loads` outcome). -/
structure RawFunction where
  name : Option Str
  arguments : Option (Option Value)

/-- One raw entry of `message.tool_calls` (the `function` attribute may be
missing). -/
structure RawToolCall where
  function : Option RawFunction

/-- `response.choices[0].message`: optional text content and optional list
of raw tool calls (absent attribute or `None` ↦ `none`). -/
structure RespMessage where
  content : Option Str
  tool_calls : Option (List RawToolCall)

/-- One element of `response.choices`. -/
structure Choice where
  message : RespMessage

/-- `response.usage`. -/
structure Usage where
  total_tokens : Nat

/-- The OpenAI `ChatCompletion` response object, as consumed. -/
structure OpenAIResponse where
  choices : List Choice
  usage : Option Usage

/-- A successfully extracted tool call: `{"name": ..., "arguments": ...}`. -/
structure ToolCallRec where
  name : Str
  arguments : Value

/-- The body of the per-entry loop of `_extract_tool_calls`: skip the entry
when the `function` attribute is missing, the name is missing or empty, or
the JSON arguments fail to decode; otherwise keep `(name, decoded args)`. -/
def surviveToolCall (tc : RawToolCall) : Option ToolCallRec :=
  match tc.function with
  | none => none
  | some f =>
    match f.name with
    | none => none
    | some nm =>
      if nm = [] then none
      else
        match f.arguments.getD (some (Value.vobj [])) with
        | none => none
        | some args => some ⟨nm, args⟩

/-- `CanvasAgent._extract_tool_calls`: empty when there are no choices or
no tool calls; otherwise the surviving entries of the first choice's tool
calls, in order. -/
def extractToolCalls (resp : OpenAIResponse) : List ToolCallRec :=
  match resp.choices with
  | [] => []
  | c :: _ =>
    match c.message.tool_calls with
    | none => []
    | some tcs => tcs.filterMap surviveToolCall

/-- The creation-verb marker `"create_"`. -/
def createMarker : Str := "create_".toList

/-- Strip one leading `"create_"` from a tool name if present
(`tool_name[7:]`); shared by `_format_actions` (backend orchestrator) and
`write_canvas_actions_to_firestore` (api Firebase service), which contain
the identical two lines. -/
def stripCreateMarker (s : Str) : Str :=
  if pyStartsWith s createMarker then s.drop 7 else s

/-- One frontend action: `{"type": ..., "params": ...}`. -/
structure FrontAction where
  type_ : Str
  params : Value

/-- `CanvasAgent._format_actions`: skip tool calls with an empty name,
strip the creation marker from the name, pass the arguments through
unchanged. -/
def formatActions (toolCalls : List ToolCallRec) : List FrontAction :=
  toolCalls.filterMap fun tc =>
    if tc.name = [] then none
    else some ⟨stripCreateMarker tc.name, tc.arguments⟩

/-- A caught Python exception: `type(e).__name__` and `str(e)`. -/
structure PyExc where
  name : Str
  message : Str

/-- The dictionary returned by `process_message` (the `error` key is only
present in the failure envelope). -/
structure ResultDict where
  response : Str
  actions : List FrontAction
  toolCalls : Nat
  tokensUsed : Nat
  model : Str
  error : Option PyExc

/-- `settings.DEFAULT_MODEL` (backend `config.py`). -/
def DEFAULT_MODEL : Str := "gpt-4-turbo".toList

/-- Fallback assistant text when the response has no content. -/
def processedFallback : Str :=
  "I\x27ve processed your request and created the components.".toList

/-- Prefix of the error-envelope response text. -/
def errorResponseText (e : PyExc) : Str :=
  "I encountered an error processing your request: ".toList ++ e.message

/-- `model or settings.DEFAULT_MODEL` (`None` and the empty string are
falsy). -/
def resolveModelKey (model : Option Str) : Str :=
  match model with
  | none => DEFAULT_MODEL
  | some m => if m = [] then DEFAULT_MODEL else m

/-- `CanvasAgent.process_message`.  The outcome of the (external,
retry-wrapped) completion call is an input: `.error e` means the call —
or any later step the outer `try` covers — raised `e`; the `except`
branch then builds the uniform error envelope.  On `.ok` the code
extracts the assistant text, the tool calls and the token usage. -/
def processMessage (callOutcome : Except PyExc OpenAIResponse)
    (userMessage sessionId : Str) (model : Option Str) : ResultDict :=
  let modelKey := resolveModelKey model
  match callOutcome with
  | .error e =>
    ⟨errorResponseText e, [], 0, 0, modelKey, some e⟩
  | .ok resp =>
    let assistantMessage :=
      match resp.choices with
      | [] => []
      | c :: _ =>
        match c.message.content with
        | none => processedFallback
        | some s => if s = [] then processedFallback else s
    let toolCalls := extractToolCalls resp
    let actions := formatActions toolCalls
    let tokensUsed := match resp.usage with
      | some u => u.total_tokens
      | none => 0
    ⟨assistantMessage, actions, toolCalls.length, tokensUsed, modelKey, none⟩

/-! ## `POST /chat` endpoint (`src/backend/app/api/routes/agent.py`)

The endpoint is modelled as a function of the request body and of the
agent (`agent.process_message`), abstracted as a function so that the
number of agent invocations is observable: the returned `Nat` counts how
many times the agent was invoked while handling the request. -/

/-- The HTTP outcome of the chat endpoint. -/
inductive ChatHttp where
  | ok (response : Str) (actions : List FrontAction) (toolCalls tokensUsed : Nat)
      (model : Str)
  | badRequest (detail : Str)
  | internalError (error : Str) (detail : Str)

/-- 400 detail for a missing/blank message. -/
def emptyMessageDetail : Str := "message is required and cannot be empty".toList

/-- `not request.message or not request.message.strip()`. -/
def messageBlank (message : Str) : Bool :=
  message = [] || pyStrip message = []

/-- Tail of the endpoint after validation: invoke the agent once and map
its result dictionary to 200 or 500. -/
def runAgentCall (agentF : Str → Option Str → ResultDict) (message : Str)
    (modelKey : Option Str) : ChatHttp × Nat :=
  let r := agentF message modelKey
  match r.error with
  | some e => (.internalError e.name e.message, 1)
  | none => (.ok r.response r.actions r.toolCalls r.tokensUsed r.model, 1)

/-- The `chat` route handler: reject a blank message with 400; treat a
falsy (absent or empty) model as unset; validate a set model key against
`AVAILABLE_MODELS` and reject unknown keys with 400; only then call the
agent. -/
def chatEndpoint (agentF : Str → Option Str → ResultDict) (message : Str)
    (model : Option Str) : ChatHttp × Nat :=
  if messageBlank message then (.badRequest emptyMessageDetail, 0)
  else
    let modelKey : Option Str :=
      match model with
      | none => none
      | some m => if m = [] then none else some m
    match modelKey with
    | none => runAgentCall agentF message none
    | some m =>
      match validateModel m with
      | .error msg => (.badRequest msg, 0)
      | .ok _ => runAgentCall agentF message (some m)

/-! ## Tool schema registry (`src/backend/app/agent/tools.py`)

A tool definition dictionary is modelled by the parts the validator
inspects: optional fields (dictionary-membership checks become `Option`),
and the parameter schema by its property-key list and required-key list
(the per-property sub-schemas are never inspected). -/

/-- `function.parameters`. -/
structure ToolParams where
  type_ : Option Str
  properties : Option (List Str)
  required : Option (List Str)

/-- The `function` member of a tool definition. -/
structure ToolFunction where
  name : Option Str
  description : Option Str
  parameters : Option ToolParams

/-- A top-level tool definition. -/
structure ToolDef where
  type_ : Option Str
  function : Option ToolFunction

/-- Literal key list helper. -/
def strList (ss : List String) : List Str := ss.map String.toList

/-- The `create_rectangle` definition (property keys in source order). -/
def createRectangleDef : ToolDef :=
  ⟨some "function".toList, some ⟨some "create_rectangle".toList,
    some "Create a rectangle. Use for containers, input fields, buttons, and dividers. Supports cornerRadius for modern styling (4-8px typical).".toList,
    some ⟨some "object".toList,
      some (strList ["x", "y", "width", "height", "fill", "stroke",
        "strokeWidth", "cornerRadius", "rotation"]),
      some (strList ["x", "y", "width", "height"])⟩⟩⟩

/-- The `create_square` definition. -/
def createSquareDef : ToolDef :=
  ⟨some "function".toList, some ⟨some "create_square".toList,
    some "Create a square. Use for icons, grid items, and thumbnails. Supports cornerRadius.".toList,
    some ⟨some "object".toList,
      some (strList ["x", "y", "size", "fill", "stroke", "strokeWidth",
        "cornerRadius", "rotation"]),
      some (strList ["x", "y", "size"])⟩⟩⟩

/-- The `create_circle` definition. -/
def createCircleDef : ToolDef :=
  ⟨some "function".toList, some ⟨some "create_circle".toList,
    some "Create a circle. Use for avatars, icons, badges, and status indicators.".toList,
    some ⟨some "object".toList,
      some (strList ["x", "y", "radius", "fill", "stroke", "strokeWidth"]),
      some (strList ["x", "y", "radius"])⟩⟩⟩

/-- The `create_text` definition. -/
def createTextDef : ToolDef :=
  ⟨some "function".toList, some ⟨some "create_text".toList,
    some "Create text. Use for titles, labels, button text, and body content. Supports fontSize, fontWeight (normal/bold), fill color, and alignment.".toList,
    some ⟨some "object".toList,
      some (strList ["x", "y", "text", "fontSize", "fontWeight", "fill",
        "align"]),
      some (strList ["x", "y", "text"])⟩⟩⟩

/-- The `create_line` definition. -/
def createLineDef : ToolDef :=
  ⟨some "function".toList, some ⟨some "create_line".toList,
    some "Create a line. Use for dividers, underlines, and connecting elements.".toList,
    some ⟨some "object".toList,
      some (strList ["x1", "y1", "x2", "y2", "stroke", "strokeWidth"]),
      some (strList ["x1", "y1", "x2", "y2"])⟩⟩⟩

/-- The five cached `TOOL_DEFINITIONS`. -/
def TOOL_DEFINITIONS : List ToolDef :=
  [createRectangleDef, createSquareDef, createCircleDef, createTextDef,
   createLineDef]

/-- The required-parameters loop: first required name absent from the
property keys, if any. -/
def firstMissingRequired (props : List Str) : List Str → Option Str
  | [] => none
  | r :: rest => if r ∈ props then firstMissingRequired props rest else some r

/-- The per-tool checks of `validate_tool_definitions`, in source order
(`idx` only feeds the error messages). -/
def checkToolDef (idx : Nat) (t : ToolDef) : Except Str Unit :=
  let idxStr := (Nat.repr idx).toList
  match t.type_ with
  | none => .error ("Tool at index ".toList ++ idxStr ++ " missing \x27type\x27 field".toList)
  | some ty =>
    if ty ≠ "function".toList then
      .error ("Tool at index ".toList ++ idxStr ++ " has invalid type".toList)
    else
      match t.function with
      | none => .error ("Tool at index ".toList ++ idxStr ++ " missing \x27function\x27 field".toList)
      | some f =>
        match f.name with
        | none => .error ("Tool at index ".toList ++ idxStr ++ " missing \x27name\x27 in function".toList)
        | some nm =>
          match f.description with
          | none => .error ("Tool at index ".toList ++ idxStr ++ " missing \x27description\x27 in function".toList)
          | some _ =>
            match f.parameters with
            | none => .error ("Tool at index ".toList ++ idxStr ++ " missing \x27parameters\x27 in function".toList)
            | some ps =>
              match ps.type_ with
              | none => .error ("Tool \x27".toList ++ nm ++ "\x27 parameters missing \x27type\x27 field".toList)
              | some pty =>
                if pty ≠ "object".toList then
                  .error ("Tool \x27".toList ++ nm ++ "\x27 parameters type must be \x27object\x27".toList)
                else
                  match ps.properties with
                  | none => .error ("Tool \x27".toList ++ nm ++ "\x27 parameters missing \x27properties\x27 field".toList)
                  | some props =>
                    match ps.required with
                    | none => .error ("Tool \x27".toList ++ nm ++ "\x27 parameters missing \x27required\x27 field".toList)
                    | some reqs =>
                      match firstMissingRequired props reqs with
                      | some r =>
                        .error ("Tool \x27".toList ++ nm ++ "\x27 has required parameter \x27".toList
                          ++ r ++ "\x27 that is not defined in properties".toList)
                      | none => .ok ()

/-- The enumeration loop of `validate_tool_definitions`. -/
def validateToolsGo : Nat → List ToolDef → Except Str Bool
  | _, [] => .ok true
  | idx, t :: rest =>
    match checkToolDef idx t with
    | .error e => .error e
    | .ok _ => validateToolsGo (idx + 1) rest

/-- `validate_tool_definitions`, parametrised by the registry it reads
(the source reads the module-level `TOOL_DEFINITIONS`): empty registry is
rejected, then each tool is checked in order, then `True` is returned.
The collected tool names are only logged — no uniqueness check exists. -/
def validateToolDefinitions (registry : List ToolDef) : Except Str Bool :=
  match registry with
  | [] => .error "TOOL_DEFINITIONS is empty".toList
  | _ => validateToolsGo 0 registry

/-- The top-level names of a registry (as collected into `tool_names`). -/
def registryNames (registry : List ToolDef) : List Str :=
  registry.filterMap fun t => t.function.bind (·.name)

/-! ## Firestore writer (`src/api/app/services/firebase_service.py`)

`write_canvas_actions_to_firestore` prepares one flat document per action
and adds it to an atomic batch.  The batch is modelled as the list of
prepared documents; Firestore's `SERVER_TIMESTAMP` sentinel is
`Value.vtimestamp`. -/

/-- One canvas action as handed to the writer: `{"type": ..., "params": ...}`
(an action whose params are not a dictionary would be skipped by the
per-action exception handler and adds no document). -/
structure CanvasAction where
  type_ : Str
  params : List (Str × Value)

def keyType : Str := "type".toList

def keyCreatedAt : Str := "createdAt".toList

def keyRotation : Str := "rotation".toList

def keyZIndex : Str := "zIndex".toList

def keyX : Str := "x".toList

def keyY : Str := "y".toList

def keyMetadata : Str := "metadata".toList

def keyBoxShadow : Str := "boxShadow".toList

/-- Keys excluded from the document schema (`metadata`, `boxShadow`). -/
def excludedKey (k : Str) : Bool :=
  k = keyMetadata || k = keyBoxShadow

/-- The body of the flattening loop: skip excluded keys and `None`
values, otherwise assign the param onto the document. -/
def docStep (d : List (Str × Value)) (kv : Str × Value) : List (Str × Value) :=
  if excludedKey kv.1 then d
  else if kv.2.isNull then d
  else setKey d kv.1 kv.2

/-- The base fields of every document: stripped type, server timestamp,
default rotation and zIndex. -/
def docBase (a : CanvasAction) : List (Str × Value) :=
  [(keyType, .vstr (stripCreateMarker a.type_)), (keyCreatedAt, .vtimestamp),
   (keyRotation, .vnum 0), (keyZIndex, .vnum 0)]

/-- The document after the flattening loop: the base fields, then every
non-excluded param with a non-`None` value assigned onto the document
(dictionary assignment, so params can override base fields). -/
def docFlattened (a : CanvasAction) : List (Str × Value) :=
  a.params.foldl docStep (docBase a)

/-- `if 'x' not in document_data: document_data['x'] = 0`. -/
def docWithX (a : CanvasAction) : List (Str × Value) :=
  if (alookup (docFlattened a) keyX).isSome then docFlattened a
  else setKey (docFlattened a) keyX (.vnum 0)

/-- The document prepared for one action: flattening, then the 0-defaults
for missing `x` and `y`. -/
def buildDocument (a : CanvasAction) : List (Str × Value) :=
  if (alookup (docWithX a) keyY).isSome then docWithX a
  else setKey (docWithX a) keyY (.vnum 0)

/-- The documents added to the batch by
`write_canvas_actions_to_firestore`, in order. -/
def prepareDocuments (actions : List CanvasAction) : List (List (Str × Value)) :=
  actions.map buildDocument

/-- Claim-side helper: the value a param list effectively supplies for a
key — present, non-`None`, and not schema-excluded. -/
def effectiveParam (params : List (Str × Value)) (k : Str) : Option Value :=
  if excludedKey k then none
  else
    match alookup params k with
    | none => none
    | some v => if v.isNull then none else some v

/-! ## Streaming orchestrator (`src/api/app/agent/orchestrator.py`)

`CanvasAgent.stream_message` consumes the LangChain agent's update
stream.  The stream is modelled as the list of chunks the `async for`
yields before it either ends normally (`streamErr = none`) or raises
(`streamErr = some e`, caught by the outer `except`, which emits the
`error` event).  A message's string content is carried together with its
`json.loads` outcome (the decoder is external). -/

/-- The `content` attribute of a LangChain message: a raw string together
with its decoding outcome, or an already-structured value. -/
inductive ContentVal where
  | cstr (raw : Str) (parsed : Option Value)
  | cval (v : Value)

/-- One LangChain message, as inspected by the stream loop. -/
structure LCMessage where
  type_ : Str
  content : Option ContentVal

/-- The per-step data of one update chunk. -/
structure StepData where
  messages : List LCMessage

/-- One chunk of `agent.astream(..., stream_mode="updates")`: a dict from
step name to step data. -/
abbrev StreamChunk := List (Str × StepData)

/-- Events yielded to the SSE layer. -/
inductive StreamEvent where
  | progress (message : Value)
  | complete (message : Value) (toolCalls : Nat)
  | error (message : Str)

/-- Fallback progress text. -/
def toolFallbackMessage : Str := "Successfully executed tool".toList

/-- Fallback completion text. -/
def completeFallbackMessage : Str := "I\x27ve completed your request.".toList

def keyMessage : Str := "message".toList

/-- Python truthiness of a value (`if last_message.content:`). -/
def valueTruthy : Value → Bool
  | .vnull => false
  | .vbool b => b
  | .vnum n => n ≠ 0
  | .vstr s => s ≠ []
  | .varr xs => !xs.isEmpty
  | .vobj fs => !fs.isEmpty
  | .vtimestamp => true

/-- Truthiness of a content attribute. -/
def contentTruthy : ContentVal → Bool
  | .cstr raw _ => raw ≠ []
  | .cval v => valueTruthy v

/-- The raw content as a value (`final_message` is sent as-is). -/
def contentToValue : ContentVal → Value
  | .cstr raw _ => .vstr raw
  | .cval v => v

/-- The progress message derived from a parsed tool result: the
`"message"` entry of a dict result, else the fallback text. -/
def progressMessageOf (v : Value) : Value :=
  match v with
  | .vobj fields =>
    match alookup fields keyMessage with
    | some m => m
    | none => .vstr toolFallbackMessage
  | _ => .vstr toolFallbackMessage

/-- The progress event a tool message yields: none when the message has no
`content` attribute; the fallback when its string content fails to decode
(the inner `except` yields the fallback); otherwise derived from the
result. -/
def progressEventFor (c : Option ContentVal) : Option StreamEvent :=
  match c with
  | none => none
  | some (.cstr _ none) => some (.progress (.vstr toolFallbackMessage))
  | some (.cstr _ (some v)) => some (.progress (progressMessageOf v))
  | some (.cval v) => some (.progress (progressMessageOf v))

/-- Loop state: events emitted so far, executed-tool count, and the last
truthy AI content seen. -/
structure StreamState where
  events : List StreamEvent
  count : Nat
  finalMsg : Option ContentVal

/-- Processing of one `(step, data)` item: only the last message of a
non-empty message list is inspected; a `tool` message bumps the count and
may emit one progress event; a truthy `ai` message updates the final
text. -/
def processStreamItem (st : StreamState) (item : Str × StepData) : StreamState :=
  match (item.2).messages.getLast? with
  | none => st
  | some lastMsg =>
    if lastMsg.type_ = "tool".toList then
      { st with
        count := st.count + 1,
        events := st.events ++ (progressEventFor lastMsg.content).toList }
    else if lastMsg.type_ = "ai".toList then
      match lastMsg.content with
      | some c => if contentTruthy c then { st with finalMsg := some c } else st
      | none => st
    else st

/-- `CanvasAgent.stream_message`: fold the chunks, then emit exactly one
terminal event — `complete` with the final text (or its fallback) and the
tool count when the stream ended normally, `error` when it raised. -/
def streamMessage (chunks : List StreamChunk) (streamErr : Option PyExc) :
    List StreamEvent :=
  let st := chunks.foldl (fun st chunk => chunk.foldl processStreamItem st)
    ⟨[], 0, none⟩
  match streamErr with
  | none =>
    st.events ++ [.complete
      (match st.finalMsg with
       | some c => contentToValue c
       | none => .vstr completeFallbackMessage)
      st.count]
  | some e => st.events ++ [.error e.message]

/-- Claim-side helper: the shape of the terminal event as a function of
how the stream ended. -/
def terminalEventFor (streamErr : Option PyExc) (m : Value) (k : Nat) :
    StreamEvent :=
  match streamErr with
  | none => .complete m k
  | some e => .error e.message

/-- Recogniser for progress events. -/
def StreamEvent.isProgress : StreamEvent → Bool
  | .progress _ => true
  | _ => false

/-! ### Claim-side (spec-worded) definitions, for comparison with the
embedded code -/

/-- Spec wording of a malformed raw tool-call entry: the `function`
attribute is missing, the tool name is missing or empty, or the argument
payload fails JSON decoding. -/
def specMalformed (tc : RawToolCall) : Bool :=
  match tc.function with
  | none => true
  | some f =>
    (match f.name with
     | none => true
     | some nm => nm = []) ||
    (match f.arguments with
     | some none => true
     | _ => false)

/-- Spec wording of the surviving `(name, decoded arguments)` pair of a
well-formed entry (an absent payload defaults to the empty argument
map). -/
def specSurvivingPair (tc : RawToolCall) : Option ToolCallRec :=
  match tc.function with
  | none => none
  | some f =>
    match f.name with
    | none => none
    | some nm =>
      if nm = [] then none
      else
        match f.arguments with
        | none => some ⟨nm, .vobj []⟩
        | some none => none
        | some (some v) => some ⟨nm, v⟩

/-- Spec wording of the per-definition checks the claim lists for the
registry validator: the `type`/`function`/`name`/`description`/
`parameters` fields are present (with `type` = `"function"`), the
parameters are of type `object` carrying `properties` and `required`, and
every required name appears among the property keys. -/
def specToolDefOk (t : ToolDef) : Bool :=
  match t with
  | ⟨some ty, some ⟨some _, some _, some ⟨some pty, some props, some reqs⟩⟩⟩ =>
    ty = "function".toList && pty = "object".toList &&
      reqs.all (fun r => r ∈ props)
  | _ => false

/-! ### Concrete instances used by witnesses and counterexamples -/

/-- A response with three raw tool calls of which the second is malformed
(missing name) and the third has no argument payload (defaults to the
empty map). -/
def c3ExampleToolCalls : List RawToolCall :=
  [ ⟨some ⟨some "create_rectangle".toList,
      some (some (.vobj [("x".toList, .vnum 1)]))⟩⟩,
    ⟨some ⟨none, some (some (.vobj []))⟩⟩,
    ⟨some ⟨some "create_text".toList, none⟩⟩ ]

/-- The example choice wrapping `c3ExampleToolCalls`. -/
def c3ExampleChoice : Choice := ⟨⟨none, some c3ExampleToolCalls⟩⟩

/-- The example response wrapping `c3ExampleToolCalls`. -/
def c3ExampleResponse : OpenAIResponse := ⟨[c3ExampleChoice], none⟩

/-- A registry listing the rectangle tool twice: every per-tool check
passes but the two top-level names collide. -/
def duplicateNameRegistry : List ToolDef := [createRectangleDef, createRectangleDef]

/-- A stub agent returning a fixed successful result dictionary. -/
def stubAgent : Str → Option Str → ResultDict :=
  fun _ modelKey => ⟨"ok".toList, [], 0, 0, resolveModelKey modelKey, none⟩

/-- An action whose params supply the reserved keys `type` and
`createdAt`. -/
def reservedKeysAction : CanvasAction :=
  ⟨"create_rectangle".toList,
   [("type".toList, .vstr "hacked".toList), ("createdAt".toList, .vnum 5)]⟩

/-- An action with a `None`-valued `x` and no `y` at all. -/
def missingCoordsAction : CanvasAction :=
  ⟨"create_circle".toList,
   [("x".toList, .vnull), ("radius".toList, .vnum 40)]⟩

/-- An ordinary creation action with a coordinate, a content key, a
`metadata` key and a `None`-valued `fill`. -/
def c9WitnessAction : CanvasAction :=
  ⟨"create_text".toList,
   [("x".toList, .vnum 12), ("text".toList, .vstr "hi".toList),
    ("metadata".toList, .vstr "m".toList), ("fill".toList, .vnull)]⟩

/-! # Theorems -/

/-- C1: whatever conversation and tool list are being sent (abstracted
into the completion client), if every attempt fails with a retryable
error then `call_openai_with_retry` makes exactly 3 total attempts,
waiting 2 s then 4 s between them (a non-decreasing sequence capped at
`RETRY_WAIT_MAX` = 10 s), and re-raises the third attempt's exception;
and if some attempt `k ≤ 3` succeeds after retryable failures, its
response is returned after exactly `k` attempts. -/
theorem retry_policy_c1 (R : Type) (client : Nat → Except OpenAIError R) :
    ((∀ n, 1 ≤ n → n ≤ MAX_RETRIES →
        ∃ e, client n = .error e ∧ isRetryableError e = true) →
      (callOpenaiWithRetry client).attempts = 3 ∧
      (callOpenaiWithRetry client).waits = [2, 4] ∧
      (callOpenaiWithRetry client).waits.Chain' (· ≤ ·) ∧
      (∀ w ∈ (callOpenaiWithRetry client).waits, w ≤ RETRY_WAIT_MAX) ∧
      (callOpenaiWithRetry client).result = client 3) ∧
    (∀ k r, 1 ≤ k → k ≤ MAX_RETRIES → client k = .ok r →
      (∀ n, 1 ≤ n → n < k →
        ∃ e, client n = .error e ∧ isRetryableError e = true) →
      (callOpenaiWithRetry client).result = .ok r ∧
      (callOpenaiWithRetry client).attempts = k) := by
  constructor
  · intro hfail
    obtain ⟨e1, he1, hr1⟩ := hfail 1 (by norm_num) (by norm_num [MAX_RETRIES])
    obtain ⟨e2, he2, hr2⟩ := hfail 2 (by norm_num) (by norm_num [MAX_RETRIES])
    obtain ⟨e3, he3, hr3⟩ := hfail 3 (by norm_num) (by norm_num [MAX_RETRIES])
    have key : callOpenaiWithRetry client = ⟨.error e3, 3, [2, 4]⟩ := by
      simp [callOpenaiWithRetry, ENABLE_RETRY, MAX_RETRIES, retryGo,
        he1, hr1, he2, hr2, he3, hr3, waitExponential, RETRY_WAIT_MIN,
        RETRY_WAIT_MAX, RETRY_WAIT_MULTIPLIER]
    rw [key, he3]
    refine ⟨rfl, rfl, ?_, ?_, rfl⟩
    · simp
    · intro w hw
      simp [RETRY_WAIT_MAX] at hw ⊢
      omega
  · intro k r hk1 hk3 hok hprev
    simp only [MAX_RETRIES] at hk3
    interval_cases k
    · have key : callOpenaiWithRetry client = ⟨.ok r, 1, []⟩ := by
        simp [callOpenaiWithRetry, ENABLE_RETRY, MAX_RETRIES, retryGo, hok]
      rw [key]
      exact ⟨rfl, rfl⟩
    · obtain ⟨e1, he1, hr1⟩ := hprev 1 (by norm_num) (by norm_num)
      have key : callOpenaiWithRetry client = ⟨.ok r, 2, [2]⟩ := by
        simp [callOpenaiWithRetry, ENABLE_RETRY, MAX_RETRIES, retryGo,
          he1, hr1, hok, waitExponential, RETRY_WAIT_MIN, RETRY_WAIT_MAX,
          RETRY_WAIT_MULTIPLIER]
      rw [key]
      exact ⟨rfl, rfl⟩
    · obtain ⟨e1, he1, hr1⟩ := hprev 1 (by norm_num) (by norm_num)
      obtain ⟨e2, he2, hr2⟩ := hprev 2 (by norm_num) (by norm_num)
      have key : callOpenaiWithRetry client = ⟨.ok r, 3, [2, 4]⟩ := by
        simp [callOpenaiWithRetry, ENABLE_RETRY, MAX_RETRIES, retryGo,
          he1, hr1, he2, hr2, hok, waitExponential, RETRY_WAIT_MIN,
          RETRY_WAIT_MAX, RETRY_WAIT_MULTIPLIER]
      rw [key]
      exact ⟨rfl, rfl⟩

/-- Witness for C1: a client that is rate-limited on every attempt is
retried exactly twice (3 attempts, waits 2 s and 4 s) and the final
rate-limit error is re-raised. -/
theorem retry_policy_c1_witness :
    (callOpenaiWithRetry (fun _ => (.error .rateLimitError : Except OpenAIError Nat))).attempts = 3 ∧
    (callOpenaiWithRetry (fun _ => (.error .rateLimitError : Except OpenAIError Nat))).waits = [2, 4] ∧
    (callOpenaiWithRetry (fun _ => (.error .rateLimitError : Except OpenAIError Nat))).result =
      .error .rateLimitError := by
  have h := (retry_policy_c1 Nat (fun _ => .error .rateLimitError)).1
    (fun n _ _ => ⟨.rateLimitError, rfl, rfl⟩)
  exact ⟨h.1, h.2.1, h.2.2.2.2⟩

/-- C2: a non-retryable error (authentication failure, malformed request,
content-policy rejection) raised on the first attempt propagates
immediately: exactly one attempt, no backoff wait, the error itself
re-raised. -/
theorem nonretryable_error_c2 (R : Type) (client : Nat → Except OpenAIError R)
    (e : OpenAIError) (hfirst : client 1 = .error e)
    (hnr : isRetryableError e = false) :
    (callOpenaiWithRetry client).result = .error e ∧
    (callOpenaiWithRetry client).attempts = 1 ∧
    (callOpenaiWithRetry client).waits = [] := by
  have key : callOpenaiWithRetry client = ⟨.error e, 1, []⟩ := by
    simp [callOpenaiWithRetry, ENABLE_RETRY, MAX_RETRIES, retryGo, hfirst, hnr]
  rw [key]
  exact ⟨rfl, rfl, rfl⟩

/-- Witness for C2: an authentication failure on attempt 1 is raised
after exactly one attempt with no waits. -/
theorem nonretryable_error_c2_witness :
    (callOpenaiWithRetry (fun _ => (.error .authenticationError : Except OpenAIError Nat))).result =
      .error .authenticationError ∧
    (callOpenaiWithRetry (fun _ => (.error .authenticationError : Except OpenAIError Nat))).attempts = 1 ∧
    (callOpenaiWithRetry (fun _ => (.error .authenticationError : Except OpenAIError Nat))).waits = [] :=
  nonretryable_error_c2 Nat (fun _ => .error .authenticationError)
    .authenticationError rfl rfl

/-- The extractor keeps an entry exactly when the claim's wording calls it
well formed, and then keeps exactly the claimed pair. -/
theorem surviveToolCall_eq_spec (tc : RawToolCall) :
    surviveToolCall tc = specSurvivingPair tc := by
  obtain ⟨f⟩ := tc
  cases f with
  | none => rfl
  | some f =>
    obtain ⟨nm, args⟩ := f
    cases nm with
    | none => rfl
    | some nm =>
      by_cases hnm : nm = []
      · simp [surviveToolCall, specSurvivingPair, hnm]
      · cases args with
        | none => simp [surviveToolCall, specSurvivingPair, hnm, Option.getD]
        | some o => cases o <;> simp [surviveToolCall, specSurvivingPair, hnm]

/-- An entry is dropped by the extractor exactly when the claim's wording
calls it malformed. -/
theorem specMalformed_eq_isNone (tc : RawToolCall) :
    specMalformed tc = (surviveToolCall tc).isNone := by
  obtain ⟨f⟩ := tc
  cases f with
  | none => rfl
  | some f =>
    obtain ⟨nm, args⟩ := f
    cases nm with
    | none => rfl
    | some nm =>
      by_cases hnm : nm = []
      · cases args with
        | none => simp [surviveToolCall, specMalformed, hnm]
        | some o => cases o <;> simp [surviveToolCall, specMalformed, hnm]
      · cases args with
        | none => simp [surviveToolCall, specMalformed, hnm, Option.getD]
        | some o => cases o <;> simp [surviveToolCall, specMalformed, hnm]

/-- Counting helper: surviving entries plus malformed entries exhaust the
raw list. -/
theorem surviving_add_malformed (tcs : List RawToolCall) :
    (tcs.filterMap surviveToolCall).length + tcs.countP specMalformed =
      tcs.length := by
  induction tcs with
  | nil => rfl
  | cons tc rest ih =>
    rw [List.countP_cons, List.filterMap_cons]
    cases h : surviveToolCall tc with
    | none =>
      have hm : specMalformed tc = true := by
        rw [specMalformed_eq_isNone, h, Option.isNone]
      simp only [hm, if_pos, List.length_cons]
      omega
    | some v =>
      have hm : specMalformed tc = false := by
        rw [specMalformed_eq_isNone, h, Option.isNone]
      simp only [hm, List.length_cons, Bool.false_eq_true, if_false]
      omega

/-- C3: `_extract_tool_calls` is total; a response with no choices yields
the empty list; and for a response whose first choice carries raw tool
calls `tcs`, the extractor returns exactly the surviving `(name, decoded
arguments)` pairs of `tcs` in their original relative order — the number
returned being the raw count minus the malformed count. -/
theorem extract_tool_calls_c3 (resp : OpenAIResponse) :
    (resp.choices = [] → extractToolCalls resp = []) ∧
    (∀ c rest tcs, resp.choices = c :: rest →
      c.message.tool_calls = some tcs →
      extractToolCalls resp = tcs.filterMap specSurvivingPair ∧
      (extractToolCalls resp).length + tcs.countP specMalformed =
        tcs.length) := by
  constructor
  · intro h
    simp [extractToolCalls, h]
  · intro c rest tcs hch htc
    have hx : extractToolCalls resp = tcs.filterMap surviveToolCall := by
      simp [extractToolCalls, hch, htc]
    constructor
    · rw [hx]
      exact List.filterMap_congr fun tc _ => surviveToolCall_eq_spec tc
    · rw [hx]
      exact surviving_add_malformed tcs

/-- Witness for C3: on the example response (3 raw entries, 1 malformed)
the extractor returns the 2 surviving pairs in order. -/
theorem extract_tool_calls_c3_witness :
    extractToolCalls c3ExampleResponse =
      [⟨"create_rectangle".toList, .vobj [("x".toList, .vnum 1)]⟩,
       ⟨"create_text".toList, .vobj []⟩] ∧
    (extractToolCalls c3ExampleResponse).length +
      c3ExampleToolCalls.countP specMalformed = 3 := by
  have h := (extract_tool_calls_c3 c3ExampleResponse).2 c3ExampleChoice []
    c3ExampleToolCalls rfl rfl
  exact ⟨h.1.trans (by rfl), h.2⟩

/-- The required-parameter loop finds no missing name exactly when every
required name is among the property keys. -/
theorem firstMissingRequired_none_iff (props reqs : List Str) :
    firstMissingRequired props reqs = none ↔
      reqs.all (fun r => r ∈ props) = true := by
  induction reqs with
  | nil => simp [firstMissingRequired]
  | cons r rest ih =>
    by_cases h : r ∈ props <;> simp [firstMissingRequired, h, ih]

/-- The per-tool validator succeeds exactly on the claim's per-definition
conditions (the enumeration index only feeds error messages). -/
theorem checkToolDef_ok_iff (idx : Nat) (t : ToolDef) :
    checkToolDef idx t = .ok () ↔ specToolDefOk t = true := by
  obtain ⟨ty, f⟩ := t
  cases ty with
  | none => simp [checkToolDef, specToolDefOk]
  | some ty =>
    by_cases hty : ty = "function".toList
    · cases f with
      | none => simp [checkToolDef, specToolDefOk, hty]
      | some f =>
        obtain ⟨nm, desc, ps⟩ := f
        cases nm with
        | none => simp [checkToolDef, specToolDefOk, hty]
        | some nm =>
          cases desc with
          | none => simp [checkToolDef, specToolDefOk, hty]
          | some d =>
            cases ps with
            | none => simp [checkToolDef, specToolDefOk, hty]
            | some ps =>
              obtain ⟨pty, props, reqs⟩ := ps
              cases pty with
              | none => simp [checkToolDef, specToolDefOk, hty]
              | some pty =>
                by_cases hpty : pty = "object".toList
                · cases props with
                  | none => simp [checkToolDef, specToolDefOk, hty, hpty]
                  | some props =>
                    cases reqs with
                    | none => simp [checkToolDef, specToolDefOk, hty, hpty]
                    | some reqs =>
                      cases hfm : firstMissingRequired props reqs with
                      | none =>
                        have := (firstMissingRequired_none_iff props reqs).mp hfm
                        simp [checkToolDef, specToolDefOk, hty, hpty, hfm, this]
                      | some r =>
                        have : ¬ firstMissingRequired props reqs = none := by
                          rw [hfm]; simp
                        rw [firstMissingRequired_none_iff] at this
                        simp [checkToolDef, specToolDefOk, hty, hpty, hfm, this]
                · simp at hpty
                  cases props <;> cases reqs <;>
                    simp [checkToolDef, specToolDefOk, hty, hpty]
    · simp at hty
      rcases f with _ |
        ⟨(_ | nm), (_ | d), (_ | ⟨(_ | pty), (_ | props), (_ | reqs)⟩)⟩ <;>
        simp [checkToolDef, specToolDefOk, hty]

/-- The enumeration loop succeeds exactly when every listed tool passes
its per-tool checks. -/
theorem validateToolsGo_ok_iff (idx : Nat) (l : List ToolDef) :
    validateToolsGo idx l = .ok true ↔ ∀ t ∈ l, specToolDefOk t = true := by
  induction l generalizing idx with
  | nil => simp [validateToolsGo]
  | cons t rest ih =>
    simp only [validateToolsGo]
    cases h : checkToolDef idx t with
    | error e =>
      have ht : ¬ specToolDefOk t = true := by
        rw [← checkToolDef_ok_iff idx, h]
        simp
      simp [ht]
    | ok u =>
      cases u
      have ht := (checkToolDef_ok_iff idx t).mp h
      simp [ht, ih (idx + 1)]

/-- Counterexample for C4: a registry listing the same (otherwise valid)
tool twice validates to `True` although its top-level names are not
pairwise distinct — no uniqueness check exists in the validator. -/
theorem validate_tools_c4_counterexample :
    validateToolDefinitions duplicateNameRegistry = .ok true ∧
    ¬ (registryNames duplicateNameRegistry).Nodup := by
  constructor
  · rfl
  · decide

/-- C4 (amended): `validate_tool_definitions` returns `True` iff the
registry is non-empty and every definition has the
`type`/`function`/`name`/`description`/`parameters` fields with
parameters of type `object` carrying `properties` and `required` and
every required name appearing in that tool's property map; name
uniqueness across the registry is NOT checked (names are only collected
for logging).  Otherwise it raises `ValueError`. -/
theorem validate_tools_c4_amended (registry : List ToolDef) :
    validateToolDefinitions registry = .ok true ↔
      (registry ≠ [] ∧ ∀ t ∈ registry, specToolDefOk t = true) := by
  cases registry with
  | nil => simp [validateToolDefinitions]
  | cons t rest =>
    have h : validateToolDefinitions (t :: rest) = validateToolsGo 0 (t :: rest) :=
      rfl
    rw [h, validateToolsGo_ok_iff]
    simp

/-- C5: `process_message` never lets an exception escape — a failure `e`
raised by the retry-wrapped completion call (or any later step inside the
outer `try`) is converted into the uniform envelope: the `error` field
holds the exception's type name and message, the actions list is empty,
and `toolCalls` and `tokensUsed` are 0 (with the response text carrying
the error message and the model key resolved as on the success path). -/
theorem process_message_error_envelope_c5 (e : PyExc)
    (userMessage sessionId : Str) (model : Option Str) :
    (processMessage (.error e) userMessage sessionId model).error =
      some ⟨e.name, e.message⟩ ∧
    (processMessage (.error e) userMessage sessionId model).actions = [] ∧
    (processMessage (.error e) userMessage sessionId model).toolCalls = 0 ∧
    (processMessage (.error e) userMessage sessionId model).tokensUsed = 0 ∧
    (processMessage (.error e) userMessage sessionId model).response =
      errorResponseText e ∧
    (∀ resp, (processMessage (.ok resp) userMessage sessionId model).error =
      none) := by
  refine ⟨rfl, rfl, rfl, rfl, rfl, ?_⟩
  intro resp
  rfl

/-- C6: action-type normalization in `_format_actions` strips the
creation marker exactly once and leaves the decoded arguments unchanged:
a name without the `create_` marker is kept as-is, `create_ ++ s` becomes
`s` (so `create_create_X` becomes `create_X`), and with every name
non-empty the action list is the per-call transform mapped in order. -/
theorem format_actions_c6 (toolCalls : List ToolCallRec)
    (hne : ∀ tc ∈ toolCalls, tc.name ≠ []) :
    formatActions toolCalls =
      toolCalls.map (fun tc => ⟨stripCreateMarker tc.name, tc.arguments⟩) ∧
    (∀ s : Str, pyStartsWith s createMarker = false →
      stripCreateMarker s = s) ∧
    (∀ s : Str, stripCreateMarker (createMarker ++ s) = s) := by
  refine ⟨?_, ?_, ?_⟩
  · induction toolCalls with
    | nil => rfl
    | cons tc rest ih =>
      have h1 : tc.name ≠ [] := hne tc (by simp)
      have h2 := ih (fun tc' htc' => hne tc' (by simp [htc']))
      simp [formatActions, h1] at h2 ⊢
      exact h2
  · intro s hs
    simp [stripCreateMarker, hs]
  · intro s
    have hpre : pyStartsWith (createMarker ++ s) createMarker = true :=
      pyStartsWith_append createMarker s
    have hlen : createMarker.length = 7 := rfl
    simp [stripCreateMarker, hpre, ← hlen, List.drop_left]

/-- Witness for C6: `create_create_rectangle` is stripped to
`create_rectangle`, and a prefix-free name (`move_shape`) is unchanged,
with params passed through. -/
theorem format_actions_c6_witness :
    formatActions
      [⟨"create_create_rectangle".toList, .vnum 7⟩,
       ⟨"move_shape".toList, .vnull⟩] =
      [⟨"create_rectangle".toList, .vnum 7⟩,
       ⟨"move_shape".toList, .vnull⟩] := by
  have h := (format_actions_c6
    [⟨"create_create_rectangle".toList, .vnum 7⟩,
     ⟨"move_shape".toList, .vnull⟩]
    (by intro tc htc; simp at htc; rcases htc with h | h <;> simp [h])).1
  exact h.trans (by rfl)

/-- Counterexample for C7: the body `{"message": "hi", "model": ""}`
provides a model key that is not among the configured keys, yet the
endpoint treats the falsy (empty) model as unset, calls the agent once
(invocation count 1) and returns 200 instead of 400. -/
theorem chat_endpoint_c7_counterexample :
    chatEndpoint stubAgent "hi".toList (some []) =
      (.ok "ok".toList [] 0 0 DEFAULT_MODEL, 1) ∧
    alookup AVAILABLE_MODELS [] = none := ⟨rfl, rfl⟩

/-- C7 (amended): a blank (empty or whitespace-only) message is rejected
with 400 and the agent is never invoked; a NON-EMPTY model override that
is not a configured `AVAILABLE_MODELS` key is rejected with 400 and the
agent is never invoked (an empty-string model is falsy in Python and is
treated as no override).  Both validations run before the agent — and
hence before any completion call — is reached. -/
theorem chat_endpoint_c7_amended (agentF : Str → Option Str → ResultDict)
    (message : Str) (model : Option Str) :
    (messageBlank message = true →
      chatEndpoint agentF message model = (.badRequest emptyMessageDetail, 0)) ∧
    (∀ m, messageBlank message = false → model = some m → m ≠ [] →
      alookup AVAILABLE_MODELS m = none →
      chatEndpoint agentF message model =
        (.badRequest (modelNotFoundMessage m), 0)) := by
  constructor
  · intro h
    simp [chatEndpoint, h]
  · intro m hb hm hne hlk
    subst hm
    simp [chatEndpoint, hb, hne, validateModel, hlk]

/-- Witness for C7: a whitespace-only message and an unknown non-empty
model key each produce a 400 with zero agent invocations. -/
theorem chat_endpoint_c7_witness :
    chatEndpoint stubAgent "   ".toList none =
      (.badRequest emptyMessageDetail, 0) ∧
    chatEndpoint stubAgent "hello".toList (some "not-a-real-model".toList) =
      (.badRequest (modelNotFoundMessage "not-a-real-model".toList), 0) := by
  constructor
  · exact (chat_endpoint_c7_amended stubAgent "   ".toList none).1 rfl
  · exact (chat_endpoint_c7_amended stubAgent "hello".toList
      (some "not-a-real-model".toList)).2 "not-a-real-model".toList rfl rfl
      (by decide) rfl

/-- A tool message yields at most one event, and that event is a
progress event. -/
theorem progressEventFor_cases (c : Option ContentVal) :
    progressEventFor c = none ∨
      ∃ m, progressEventFor c = some (.progress m) := by
  cases c with
  | none => exact Or.inl rfl
  | some cv =>
    cases cv with
    | cstr raw p =>
      cases p with
      | none => exact Or.inr ⟨_, rfl⟩
      | some v => exact Or.inr ⟨_, rfl⟩
    | cval v => exact Or.inr ⟨_, rfl⟩

/-- One stream step only appends progress events. -/
theorem processStreamItem_progress (st : StreamState) (item : Str × StepData)
    (h : ∀ e ∈ st.events, e.isProgress = true) :
    ∀ e ∈ (processStreamItem st item).events, e.isProgress = true := by
  unfold processStreamItem
  cases hlast : (item.2).messages.getLast? with
  | none => simpa using h
  | some lastMsg =>
    by_cases ht : lastMsg.type_ = "tool".toList
    · simp only [ht, if_pos]
      intro e he
      simp only [List.mem_append] at he
      rcases he with he | he
      · exact h e he
      · rcases progressEventFor_cases lastMsg.content with hc | ⟨m, hc⟩
        · rw [hc] at he
          simp at he
        · rw [hc] at he
          simp at he
          rw [he]
          rfl
    · simp only [if_neg ht]
      by_cases ha : lastMsg.type_ = "ai".toList
      · simp only [ha, if_pos]
        cases lastMsg.content with
        | none => simpa using h
        | some c =>
          by_cases htr : contentTruthy c = true
          · simpa [htr] using h
          · simp only [htr]
            simpa using h
      · simp only [if_neg ha]
        exact h

/-- Folding one chunk preserves the all-progress invariant. -/
theorem chunkFold_progress (chunk : StreamChunk) :
    ∀ st : StreamState, (∀ e ∈ st.events, e.isProgress = true) →
      ∀ e ∈ (chunk.foldl processStreamItem st).events, e.isProgress = true := by
  induction chunk with
  | nil => intro st h; simpa using h
  | cons item rest ih =>
    intro st h
    exact ih (processStreamItem st item) (processStreamItem_progress st item h)

/-- The whole event fold only produces progress events. -/
theorem streamFold_progress (chunks : List StreamChunk) :
    ∀ e ∈ (chunks.foldl (fun st chunk => chunk.foldl processStreamItem st)
      (⟨[], 0, none⟩ : StreamState)).events, e.isProgress = true := by
  have key : ∀ (l : List StreamChunk) (st : StreamState),
      (∀ e ∈ st.events, e.isProgress = true) →
      ∀ e ∈ (l.foldl (fun st chunk => chunk.foldl processStreamItem st) st).events,
        e.isProgress = true := by
    intro l
    induction l with
    | nil => intro st h; simpa using h
    | cons chunk rest ih =>
      intro st h
      exact ih (chunk.foldl processStreamItem st) (chunkFold_progress chunk st h)
  exact key chunks ⟨[], 0, none⟩ (by intro e he; simp at he)

/-- C8: every event sequence yielded by `stream_message` is zero or more
progress events followed by exactly one terminal event — `complete`
(carrying a message and the executed tool count) when the chunk stream
ended normally, `error` (carrying the exception message) when it raised —
and nothing follows the terminal event. -/
theorem stream_message_c8 (chunks : List StreamChunk)
    (streamErr : Option PyExc) :
    ∃ ps m k, streamMessage chunks streamErr =
      ps ++ [terminalEventFor streamErr m k] ∧
      ∀ e ∈ ps, e.isProgress = true := by
  cases streamErr with
  | none =>
    refine ⟨_, _, _, rfl, ?_⟩
    exact streamFold_progress chunks
  | some e =>
    refine ⟨_, .vnull, 0, rfl, ?_⟩
    exact streamFold_progress chunks

/-! ### Dictionary-fold lemmas for the Firestore document builder -/

theorem dictKeys_cons {α : Type} (k : Str) (v : α) (rest : List (Str × α)) :
    dictKeys ((k, v) :: rest) = k :: dictKeys rest := rfl

theorem mem_dictKeys_of_alookup {α : Type} (params : List (Str × α)) :
    ∀ k v, alookup params k = some v → k ∈ dictKeys params := by
  induction params with
  | nil => intro k v h; simp [alookup] at h
  | cons kv rest ih =>
    intro k v h
    obtain ⟨k₁, v₁⟩ := kv
    rw [dictKeys_cons]
    by_cases hk : k₁ = k
    · subst hk; exact List.mem_cons_self _ _
    · simp only [alookup, if_neg hk] at h
      exact List.mem_cons_of_mem _ (ih k v h)

theorem alookup_none_of_not_mem {α : Type} (params : List (Str × α)) (k : Str)
    (h : k ∉ dictKeys params) : alookup params k = none := by
  cases hl : alookup params k with
  | none => rfl
  | some v => exact absurd (mem_dictKeys_of_alookup params k v hl) h

/-- A key different from the processed param's key is untouched by one
loop step. -/
theorem alookup_docStep_ne (d : List (Str × Value)) (k₁ : Str) (v₁ : Value)
    (k : Str) (h : k ≠ k₁) :
    alookup (docStep d (k₁, v₁)) k = alookup d k := by
  unfold docStep
  by_cases he : excludedKey k₁ = true
  · simp [he]
  · by_cases hn : v₁.isNull = true
    · simp [he, hn]
    · simp [he, hn, alookup_setKey_ne d k₁ k v₁ h]

/-- A key the params never mention is untouched by the whole loop. -/
theorem foldl_docStep_absent (params : List (Str × Value)) :
    ∀ d k, alookup params k = none →
      alookup (params.foldl docStep d) k = alookup d k := by
  induction params with
  | nil => intro d k _; rfl
  | cons kv rest ih =>
    intro d k h
    obtain ⟨k₁, v₁⟩ := kv
    have hk : ¬ k₁ = k := by
      intro hh
      subst hh
      simp [alookup] at h
    have hrest : alookup rest k = none := by
      simpa [alookup, hk] using h
    show alookup (rest.foldl docStep (docStep d (k₁, v₁))) k = alookup d k
    rw [ih _ k hrest, alookup_docStep_ne d k₁ v₁ k (fun hh => hk hh.symm)]

/-- A schema-excluded key is untouched by the whole loop. -/
theorem foldl_docStep_excluded (params : List (Str × Value)) :
    ∀ d k, excludedKey k = true →
      alookup (params.foldl docStep d) k = alookup d k := by
  induction params with
  | nil => intro d k _; rfl
  | cons kv rest ih =>
    intro d k hk
    obtain ⟨k₁, v₁⟩ := kv
    show alookup (rest.foldl docStep (docStep d (k₁, v₁))) k = alookup d k
    rw [ih _ k hk]
    by_cases he : excludedKey k₁ = true
    · unfold docStep
      simp [he]
    · have hne : k ≠ k₁ := by
        intro hh
        subst hh
        exact he hk
      exact alookup_docStep_ne d k₁ v₁ k hne

/-- A key whose only binding carries `None` is untouched by the whole
loop (keys are unique in a Python dict). -/
theorem foldl_docStep_nullentry (params : List (Str × Value)) :
    ∀ d k w, (dictKeys params).Nodup → alookup params k = some w →
      w.isNull = true → alookup (params.foldl docStep d) k = alookup d k := by
  induction params with
  | nil => intro d k w _ h; simp [alookup] at h
  | cons kv rest ih =>
    intro d k w hN hl hw
    obtain ⟨k₁, v₁⟩ := kv
    rw [dictKeys_cons] at hN
    obtain ⟨hk₁, hN'⟩ := List.nodup_cons.mp hN
    show alookup (rest.foldl docStep (docStep d (k₁, v₁))) k = alookup d k
    by_cases hk : k₁ = k
    · subst hk
      have hv : v₁ = w := by simpa [alookup] using hl
      subst hv
      have hrest : alookup rest k₁ = none := alookup_none_of_not_mem rest k₁ hk₁
      rw [foldl_docStep_absent rest _ k₁ hrest]
      unfold docStep
      by_cases he : excludedKey k₁ = true
      · simp [he]
      · simp [he, hw]
    · have hrest : alookup rest k = some w := by
        simpa [alookup, hk] using hl
      rw [ih _ k w hN' hrest hw, alookup_docStep_ne d k₁ v₁ k (fun hh => hk hh.symm)]

/-- A key the params do not effectively supply is untouched by the whole
loop. -/
theorem foldl_docStep_ineffective (params : List (Str × Value))
    (d : List (Str × Value)) (k : Str) (hN : (dictKeys params).Nodup)
    (heff : effectiveParam params k = none) :
    alookup (params.foldl docStep d) k = alookup d k := by
  by_cases hexc : excludedKey k = true
  · exact foldl_docStep_excluded params d k hexc
  · unfold effectiveParam at heff
    rw [if_neg hexc] at heff
    cases hl : alookup params k with
    | none => exact foldl_docStep_absent params d k hl
    | some w =>
      rw [hl] at heff
      by_cases hw : w.isNull = true
      · exact foldl_docStep_nullentry params d k w hN hl hw
      · simp [hw] at heff

/-- An effectively supplied param value ends up on the document. -/
theorem foldl_docStep_effective (params : List (Str × Value)) :
    ∀ d k v, (dictKeys params).Nodup → alookup params k = some v →
      v.isNull = false → excludedKey k = false →
      alookup (params.foldl docStep d) k = some v := by
  induction params with
  | nil => intro d k v _ h; simp [alookup] at h
  | cons kv rest ih =>
    intro d k v hN hl hnull hexc
    obtain ⟨k₁, v₁⟩ := kv
    rw [dictKeys_cons] at hN
    obtain ⟨hk₁, hN'⟩ := List.nodup_cons.mp hN
    show alookup (rest.foldl docStep (docStep d (k₁, v₁))) k = some v
    by_cases hk : k₁ = k
    · subst hk
      have hv : v₁ = v := by simpa [alookup] using hl
      subst hv
      have hrest : alookup rest k₁ = none := alookup_none_of_not_mem rest k₁ hk₁
      rw [foldl_docStep_absent rest _ k₁ hrest]
      unfold docStep
      simp [hexc, hnull, alookup_setKey_self]
    · have hrest : alookup rest k = some v := by
        simpa [alookup, hk] using hl
      exact ih _ k v hN' hrest hnull hexc

/-- Every key the loop leaves on the document is either a base key or an
effectively supplied param key. -/
theorem foldl_docStep_domain (params : List (Str × Value)) :
    ∀ d k, (dictKeys params).Nodup →
      (alookup (params.foldl docStep d) k).isSome = true →
      (alookup d k).isSome = true ∨
        ∃ v, alookup params k = some v ∧ v.isNull = false ∧
          excludedKey k = false := by
  induction params with
  | nil => intro d k _ h; exact Or.inl h
  | cons kv rest ih =>
    intro d k hN h
    obtain ⟨k₁, v₁⟩ := kv
    rw [dictKeys_cons] at hN
    obtain ⟨hk₁, hN'⟩ := List.nodup_cons.mp hN
    have hstep := ih (docStep d (k₁, v₁)) k hN' h
    rcases hstep with hd | ⟨v, hv, hnull, hexc⟩
    · by_cases hk : k₁ = k
      · subst hk
        unfold docStep at hd
        by_cases he : excludedKey k₁ = true
        · rw [if_pos he] at hd
          exact Or.inl hd
        · rw [if_neg he] at hd
          by_cases hn : v₁.isNull = true
          · rw [if_pos hn] at hd
            exact Or.inl hd
          · rw [if_neg hn] at hd
            rw [alookup_setKey_self] at hd
            refine Or.inr ⟨v₁, by simp [alookup], ?_, ?_⟩
            · simpa using hn
            · simpa using he
      · rw [alookup_docStep_ne d k₁ v₁ k (fun hh => hk hh.symm)] at hd
        exact Or.inl hd
    · by_cases hk : k₁ = k
      · subst hk
        exact absurd (mem_dictKeys_of_alookup rest k₁ v hv) hk₁
      · refine Or.inr ⟨v, ?_, hnull, hexc⟩
        simpa [alookup, hk] using hv

/-- The base document only carries the four base keys. -/
theorem alookup_docBase_domain (a : CanvasAction) (k : Str)
    (h : (alookup (docBase a) k).isSome = true) :
    k = keyType ∨ k = keyCreatedAt ∨ k = keyRotation ∨ k = keyZIndex := by
  by_cases h1 : k = keyType
  · exact Or.inl h1
  by_cases h2 : k = keyCreatedAt
  · exact Or.inr (Or.inl h2)
  by_cases h3 : k = keyRotation
  · exact Or.inr (Or.inr (Or.inl h3))
  by_cases h4 : k = keyZIndex
  · exact Or.inr (Or.inr (Or.inr h4))
  exfalso
  have n1 : ¬ keyType = k := fun hh => h1 hh.symm
  have n2 : ¬ keyCreatedAt = k := fun hh => h2 hh.symm
  have n3 : ¬ keyRotation = k := fun hh => h3 hh.symm
  have n4 : ¬ keyZIndex = k := fun hh => h4 hh.symm
  have hnone : alookup (docBase a) k = none := by
    simp [docBase, alookup, n1, n2, n3, n4]
  rw [hnone] at h
  simp at h

/-- Unpacking an effectively supplied param. -/
theorem effectiveParam_some_spec (params : List (Str × Value)) (k : Str)
    (v : Value) (h : effectiveParam params k = some v) :
    excludedKey k = false ∧ alookup params k = some v ∧ v.isNull = false := by
  unfold effectiveParam at h
  by_cases he : excludedKey k = true
  · rw [if_pos he] at h
    cases h
  · rw [if_neg he] at h
    cases hl : alookup params k with
    | none =>
      rw [hl] at h
      cases h
    | some w =>
      rw [hl] at h
      have h2 : (if w.isNull = true then none else some w) = some v := h
      by_cases hw : w.isNull = true
      · rw [if_pos hw] at h2
        cases h2
      · rw [if_neg hw] at h2
        injection h2 with h'
        subst h'
        exact ⟨by simpa using he, rfl, by simpa using hw⟩

/-- The x-defaulting step leaves other keys alone. -/
theorem alookup_docWithX_ne (a : CanvasAction) (k : Str) (h : k ≠ keyX) :
    alookup (docWithX a) k = alookup (docFlattened a) k := by
  unfold docWithX
  by_cases hx : (alookup (docFlattened a) keyX).isSome = true
  · simp [hx]
  · simp [hx, alookup_setKey_ne _ keyX k _ h]

/-- Keys other than `x` and `y` read from the final document exactly as
from the flattened one. -/
theorem alookup_buildDocument_ne (a : CanvasAction) (k : Str)
    (hx : k ≠ keyX) (hy : k ≠ keyY) :
    alookup (buildDocument a) k = alookup (docFlattened a) k := by
  unfold buildDocument
  by_cases hYs : (alookup (docWithX a) keyY).isSome = true
  · simp [hYs, alookup_docWithX_ne a k hx]
  · simp [hYs, alookup_setKey_ne _ keyY k _ hy, alookup_docWithX_ne a k hx]

/-- A flattened `x` survives to the final document. -/
theorem alookup_buildDocument_x_some (a : CanvasAction) (v : Value)
    (h : alookup (docFlattened a) keyX = some v) :
    alookup (buildDocument a) keyX = some v := by
  have hX : alookup (docWithX a) keyX = some v := by
    unfold docWithX
    simp [h]
  unfold buildDocument
  by_cases hYs : (alookup (docWithX a) keyY).isSome = true
  · simp [hYs, hX]
  · simp [hYs, alookup_setKey_ne _ keyY keyX _ (by decide), hX]

/-- A missing `x` is defaulted to 0 on the final document. -/
theorem alookup_buildDocument_x_none (a : CanvasAction)
    (h : alookup (docFlattened a) keyX = none) :
    alookup (buildDocument a) keyX = some (.vnum 0) := by
  have hX : alookup (docWithX a) keyX = some (.vnum 0) := by
    unfold docWithX
    simp [h, alookup_setKey_self]
  unfold buildDocument
  by_cases hYs : (alookup (docWithX a) keyY).isSome = true
  · simp [hYs, hX]
  · simp [hYs, alookup_setKey_ne _ keyY keyX _ (by decide), hX]

/-- A flattened `y` survives to the final document. -/
theorem alookup_buildDocument_y_some (a : CanvasAction) (v : Value)
    (h : alookup (docFlattened a) keyY = some v) :
    alookup (buildDocument a) keyY = some v := by
  have hY : alookup (docWithX a) keyY = some v :=
    (alookup_docWithX_ne a keyY (by decide)).trans h
  unfold buildDocument
  simp [hY]

/-- A missing `y` is defaulted to 0 on the final document. -/
theorem alookup_buildDocument_y_none (a : CanvasAction)
    (h : alookup (docFlattened a) keyY = none) :
    alookup (buildDocument a) keyY = some (.vnum 0) := by
  have hY : alookup (docWithX a) keyY = none :=
    (alookup_docWithX_ne a keyY (by decide)).trans h
  unfold buildDocument
  simp [hY, alookup_setKey_self]

/-- Every key of the final document is `x`, `y`, or a key of the
flattened document. -/
theorem buildDocument_domain (a : CanvasAction) (k : Str)
    (h : (alookup (buildDocument a) k).isSome = true) :
    k = keyX ∨ k = keyY ∨
      (alookup (docFlattened a) k).isSome = true := by
  by_cases hx : k = keyX
  · exact Or.inl hx
  by_cases hy : k = keyY
  · exact Or.inr (Or.inl hy)
  rw [alookup_buildDocument_ne a k hx hy] at h
  exact Or.inr (Or.inr h)

/-- A base field reads as its default unless the params effectively
override it. -/
theorem buildDocument_basekey (a : CanvasAction)
    (hN : (dictKeys a.params).Nodup) (K : Str) (dflt : Value)
    (hKx : K ≠ keyX) (hKy : K ≠ keyY)
    (hbase : alookup (docBase a) K = some dflt) :
    alookup (buildDocument a) K =
      some ((effectiveParam a.params K).getD dflt) := by
  cases heff : effectiveParam a.params K with
  | none =>
    rw [alookup_buildDocument_ne a K hKx hKy]
    unfold docFlattened
    rw [foldl_docStep_ineffective a.params (docBase a) K hN heff, hbase]
    rfl
  | some v =>
    obtain ⟨hexc, hl, hnull⟩ := effectiveParam_some_spec a.params K v heff
    rw [alookup_buildDocument_ne a K hKx hKy]
    unfold docFlattened
    rw [foldl_docStep_effective a.params (docBase a) K v hN hl hnull hexc]
    rfl

/-- Counterexample for C9: for the action
`{"type": "create_rectangle", "params": {"type": "hacked", "createdAt": 5}}`
the prepared document's `type` is the param value `"hacked"`, not the
stripped action type `"rectangle"`, and its `createdAt` is the param
value 5, not the server timestamp — dictionary assignment lets params
override the base fields. -/
theorem firestore_document_c9_counterexample :
    alookup (buildDocument reservedKeysAction) keyType =
      some (.vstr "hacked".toList) ∧
    stripCreateMarker reservedKeysAction.type_ = "rectangle".toList ∧
    ¬ ("hacked".toList : Str) = "rectangle".toList ∧
    alookup (buildDocument reservedKeysAction) keyCreatedAt =
      some (.vnum 5) ∧
    ¬ (Value.vnum 5 = Value.vtimestamp) :=
  ⟨rfl, rfl, by decide, rfl, fun h => Value.noConfusion h⟩

/-- C9 (amended): for every action with a well-formed (duplicate-free)
param dictionary, the prepared document carries `type` equal to the
action's type with one leading creation marker stripped, a `createdAt`
server timestamp, and `rotation` 0 and `zIndex` 0 — each of these four
overridden when the params supply that key with a non-`None` value —
includes every non-excluded param key with a non-`None` value unchanged,
contains no keys beyond the base/default keys and those params, and never
contains `metadata` or `boxShadow`. -/
theorem firestore_document_c9_amended (a : CanvasAction)
    (hN : (dictKeys a.params).Nodup) :
    alookup (buildDocument a) keyType =
      some ((effectiveParam a.params keyType).getD
        (.vstr (stripCreateMarker a.type_))) ∧
    alookup (buildDocument a) keyCreatedAt =
      some ((effectiveParam a.params keyCreatedAt).getD .vtimestamp) ∧
    alookup (buildDocument a) keyRotation =
      some ((effectiveParam a.params keyRotation).getD (.vnum 0)) ∧
    alookup (buildDocument a) keyZIndex =
      some ((effectiveParam a.params keyZIndex).getD (.vnum 0)) ∧
    (∀ k v, alookup a.params k = some v → v.isNull = false →
      excludedKey k = false → alookup (buildDocument a) k = some v) ∧
    (∀ k, (alookup (buildDocument a) k).isSome = true →
      k = keyType ∨ k = keyCreatedAt ∨ k = keyRotation ∨ k = keyZIndex ∨
        k = keyX ∨ k = keyY ∨
        ∃ v, alookup a.params k = some v ∧ v.isNull = false ∧
          excludedKey k = false) ∧
    alookup (buildDocument a) keyMetadata = none ∧
    alookup (buildDocument a) keyBoxShadow = none := by
  refine ⟨?_, ?_, ?_, ?_, ?_, ?_, ?_, ?_⟩
  · exact buildDocument_basekey a hN keyType _ (by decide) (by decide) rfl
  · exact buildDocument_basekey a hN keyCreatedAt _ (by decide) (by decide) rfl
  · exact buildDocument_basekey a hN keyRotation _ (by decide) (by decide) rfl
  · exact buildDocument_basekey a hN keyZIndex _ (by decide) (by decide) rfl
  · intro k v hl hnull hexc
    have hflat : alookup (docFlattened a) k = some v := by
      unfold docFlattened
      exact foldl_docStep_effective a.params (docBase a) k v hN hl hnull hexc
    by_cases hx : k = keyX
    · subst hx
      exact alookup_buildDocument_x_some a v hflat
    by_cases hy : k = keyY
    · subst hy
      exact alookup_buildDocument_y_some a v hflat
    rw [alookup_buildDocument_ne a k hx hy]
    exact hflat
  · intro k hsome
    rcases buildDocument_domain a k hsome with hx | hy | hflat
    · exact Or.inr (Or.inr (Or.inr (Or.inr (Or.inl hx))))
    · exact Or.inr (Or.inr (Or.inr (Or.inr (Or.inr (Or.inl hy)))))
    · unfold docFlattened at hflat
      rcases foldl_docStep_domain a.params (docBase a) k hN hflat with
        hbase | hex
      · rcases alookup_docBase_domain a k hbase with h | h | h | h
        · exact Or.inl h
        · exact Or.inr (Or.inl h)
        · exact Or.inr (Or.inr (Or.inl h))
        · exact Or.inr (Or.inr (Or.inr (Or.inl h)))
      · exact Or.inr (Or.inr (Or.inr (Or.inr (Or.inr (Or.inr hex)))))
  · rw [alookup_buildDocument_ne a keyMetadata (by decide) (by decide)]
    unfold docFlattened
    rw [foldl_docStep_excluded a.params (docBase a) keyMetadata rfl]
    rfl
  · rw [alookup_buildDocument_ne a keyBoxShadow (by decide) (by decide)]
    unfold docFlattened
    rw [foldl_docStep_excluded a.params (docBase a) keyBoxShadow rfl]
    rfl

/-- Witness for C9 (amended): an ordinary creation action gets its
stripped type, the default rotation, and no `metadata` key. -/
theorem firestore_document_c9_witness :
    alookup (buildDocument c9WitnessAction) keyType =
      some (.vstr "text".toList) ∧
    alookup (buildDocument c9WitnessAction) keyRotation =
      some (.vnum 0) ∧
    alookup (buildDocument c9WitnessAction) keyMetadata = none := by
  have h := firestore_document_c9_amended c9WitnessAction (by decide)
  exact ⟨h.1.trans (by rfl), h.2.2.1.trans (by rfl), h.2.2.2.2.2.2.1⟩

/-- C10: every prepared document carries both an `x` and a `y` field, and
whenever the params do not effectively supply a coordinate (missing, or
`None`-valued) the missing one reads 0. -/
theorem firestore_xy_defaults_c10 (a : CanvasAction)
    (hN : (dictKeys a.params).Nodup) :
    (alookup (buildDocument a) keyX).isSome = true ∧
    (alookup (buildDocument a) keyY).isSome = true ∧
    (effectiveParam a.params keyX = none →
      alookup (buildDocument a) keyX = some (.vnum 0)) ∧
    (effectiveParam a.params keyY = none →
      alookup (buildDocument a) keyY = some (.vnum 0)) := by
  refine ⟨?_, ?_, ?_, ?_⟩
  · cases h : alookup (docFlattened a) keyX with
    | none => rw [alookup_buildDocument_x_none a h]; rfl
    | some v => rw [alookup_buildDocument_x_some a v h]; rfl
  · cases h : alookup (docFlattened a) keyY with
    | none => rw [alookup_buildDocument_y_none a h]; rfl
    | some v => rw [alookup_buildDocument_y_some a v h]; rfl
  · intro heff
    have hflat : alookup (docFlattened a) keyX = none := by
      unfold docFlattened
      rw [foldl_docStep_ineffective a.params (docBase a) keyX hN heff]
      rfl
    exact alookup_buildDocument_x_none a hflat
  · intro heff
    have hflat : alookup (docFlattened a) keyY = none := by
      unfold docFlattened
      rw [foldl_docStep_ineffective a.params (docBase a) keyY hN heff]
      rfl
    exact alookup_buildDocument_y_none a hflat

/-- Witness for C10: an action with a `None`-valued `x` and no `y` gets
both coordinates defaulted to 0. -/
theorem firestore_xy_defaults_c10_witness :
    alookup (buildDocument missingCoordsAction) keyX = some (.vnum 0) ∧
    alookup (buildDocument missingCoordsAction) keyY = some (.vnum 0) := by
  have h := firestore_xy_defaults_c10 missingCoordsAction (by decide)
  exact ⟨h.2.2.1 rfl, h.2.2.2 rfl⟩

end Canvas
